import Mathlib

/-!
Shallow embedding of the deduplication / claim-verification core of the
ai-intelligence-brief pipeline, and proofs of the spec's claims about it.

Embedded source files:
* `src/core/verify.py` (`detect_contestation`, `verify`)
* `src/ingest/rss.py` (`ingest_rss` merge loop, rejection filter, fetch branch)
* `src/core/ingestion_policy.py` (`INGESTION_POLICY`)
* `src/core/normalize_topics.py` (the mapping-application pass)

External collaborators (the OpenAI contestation oracle and the full-article
fetch) are modelled as function parameters; logging calls are pure
observability and are not modelled.
-/

namespace Brief

/-- Python `str.isspace` characters relevant to `.strip()`. -/
def pyIsSpace (c : Char) : Bool :=
  c == ' ' || c == '\t' || c == '\n' || c == '\r' || c == '\x0b' || c == '\x0c'

/-- Python `str.strip()`: drop leading and trailing whitespace. -/
def pyStrip (s : String) : String :=
  ⟨((s.data.dropWhile pyIsSpace).reverse.dropWhile pyIsSpace).reverse⟩

/-- ASCII uppercase of one character (the case Python `str.upper()` needs
for the oracle's yes/no answers). -/
def upChar (c : Char) : Char :=
  if 'a' ≤ c ∧ c ≤ 'z' then Char.ofNat (c.toNat - 32) else c

/-- Python `str.upper()`. -/
def pyUpper (s : String) : String := ⟨s.data.map upChar⟩

/-- A raw item as read by `verify` from `raw_data` (`src/core/verify.py`):
each has an `id`, a `content`, and an optional `topic_id`
(`item.get("topic_id", None)`). -/
structure RawItem where
  id : String
  content : String
  topic_id : Option String
deriving Repr, DecidableEq

/-- A claim as produced by extraction and consumed by `verify`:
`{text, confidence, source_ids, topic_id}`. `confidence` is a string,
as in the Python source. -/
structure Claim where
  text : String
  confidence : String
  source_ids : List String
  topic_id : String
deriving Repr, DecidableEq

/-- The external contestation oracle (`client.chat.completions.create` in
`detect_contestation`): given claim text, the topic-scoped source texts and
the topic id, it either returns the model's answer string (`.ok`) or raises
(`.error`), exactly the two outcomes of the API call. -/
abbrev Oracle : Type := String → List String → String → Except String String

/-- `detect_contestation` (`src/core/verify.py:8-50`): returns `false`
immediately on empty evidence; otherwise consults the oracle, strips and
upcases the answer, and compares it with `"YES"`. An oracle error is not
caught and propagates. -/
def detect_contestation (oracle : Oracle) (claim_text : String)
    (other_sources : List String) (topic_id : String) : Except String Bool :=
  if other_sources.isEmpty then .ok false
  else
    match oracle claim_text other_sources topic_id with
    | .error e => .error e
    | .ok answer => .ok (pyUpper (pyStrip answer) == "YES")

/-- The `items_by_id` dict built in `verify` (`{item["id"]: item for item in
raw_data}`): a Python dict comprehension keeps the last item for a
duplicated id, so lookup scans from the end. -/
def items_by_id (raw_data : List RawItem) (sid : String) : Option RawItem :=
  raw_data.reverse.find? (fun item => item.id == sid)

/-- Evidence gathered per topic by the primary branch of `verify`'s
`topic_sources` construction: contents of the raw items whose own
`topic_id` equals the topic, in input order. -/
def primaryEvidence (raw_data : List RawItem) (t : String) : List String :=
  (raw_data.filter (fun item => item.topic_id == some t)).map (·.content)

/-- Evidence gathered per topic by the fallback branch of `verify` (used when
some raw item lacks a `topic_id`): for each claim with this topic, in claim
order, the contents of the items its `source_ids` resolve to. -/
def fallbackEvidence (claims : List Claim) (raw_data : List RawItem)
    (t : String) : List String :=
  (claims.filter (fun c => c.topic_id == t)).flatMap
    (fun c => c.source_ids.filterMap
      (fun sid => (items_by_id raw_data sid).map (·.content)))

/-- The `topic_sources` map of `verify` (`src/core/verify.py:63-81`), as a
function from topic to the evidence list; a topic with no entry in the
Python dict yields `[]`, matching `topic_sources.get(topic_id, [])`. The
fallback branch is taken exactly when `None` would be a key, i.e. when some
raw item has no `topic_id`. -/
def topicSources (claims : List Claim) (raw_data : List RawItem)
    (t : String) : List String :=
  if raw_data.any (fun item => item.topic_id == none) then
    fallbackEvidence claims raw_data t
  else
    primaryEvidence raw_data t

/-- Rule 1 of `verify` (`src/core/verify.py:101-112`): corroboration.
Fires when `source_count >= 2 and claim["confidence"] == "reported"`. -/
def rule1 (c : Claim) : Claim :=
  if 2 ≤ c.source_ids.length ∧ c.confidence = "reported" then
    { c with confidence := "corroborated" }
  else c

/-- The per-claim body of `verify`'s loop (`src/core/verify.py:83-154`):
rule 1, then the contestation check over the topic-scoped evidence. An
oracle error propagates out of the loop. -/
def verifyClaim (oracle : Oracle) (evidence : String → List String)
    (c : Claim) : Except String Claim :=
  let c1 := rule1 c
  match detect_contestation oracle c.text (evidence c.topic_id) c.topic_id with
  | .error e => .error e
  | .ok true => .ok { c1 with confidence := "contested" }
  | .ok false => .ok c1

/-- Sequential effectful map: processes the claims in order and aborts at
the first error, as the Python `for` loop does when an exception is
raised. -/
def mapExcept {α β : Type} (f : α → Except String β) :
    List α → Except String (List β)
  | [] => .ok []
  | a :: as =>
    match f a with
    | .error e => .error e
    | .ok b =>
      match mapExcept f as with
      | .error e => .error e
      | .ok bs => .ok (b :: bs)

/-- `verify` (`src/core/verify.py:53-156`): builds `topic_sources` once,
then processes each claim in order. The Python function mutates the claims
in place and returns `analysis`; here the updated claim list is returned,
and an uncaught oracle exception is the `.error` case. `raw_data` is only
read. -/
def verify (oracle : Oracle) (claims : List Claim)
    (raw_data : List RawItem) : Except String (List Claim) :=
  mapExcept (verifyClaim oracle (topicSources claims raw_data)) claims

/-! ## Merge engine (`src/ingest/rss.py`, `src/core/ingestion_policy.py`) -/

/-- One entry of `INGESTION_POLICY` (`src/core/ingestion_policy.py`): tier,
fetch flag, minimum content length (the `notes` field is documentation). -/
structure Policy where
  tier : Nat
  fetch_full_article : Bool
  min_content_length : Nat
deriving Repr, DecidableEq

/-- The `INGESTION_POLICY` table (`src/core/ingestion_policy.py:4-80`). -/
def INGESTION_POLICY (source_type : String) : Option Policy :=
  if source_type = "news" then some ⟨1, true, 0⟩
  else if source_type = "corporate_research" then some ⟨2, false, 200⟩
  else if source_type = "analysis_newsletter" then some ⟨2, false, 200⟩
  else if source_type = "frontier_lab" then some ⟨3, false, 100⟩
  else if source_type = "vendor_blog" then some ⟨3, false, 100⟩
  else if source_type = "policy_org" then some ⟨4, false, 200⟩
  else if source_type = "press_release" then some ⟨4, false, 100⟩
  else if source_type = "research_journal" then some ⟨5, false, 200⟩
  else if source_type = "community_blog" then some ⟨5, true, 0⟩
  else none

/-- `INGESTION_POLICY.get(source_type, INGESTION_POLICY["unknown"])`
(`src/ingest/rss.py:121-124`): fall back to the `"unknown"` policy. -/
def resolvePolicy (source_type : String) : Policy :=
  (INGESTION_POLICY source_type).getD ⟨5, false, 200⟩

/-- One feed entry as seen by the ingest loop, flattened with its feed's
publisher and source type (`for publisher, feed_cfg in feeds.items(): ...
for entry in feed.entries`). `raw_content` is the result of
`extract_content(entry)`; `link`, `title`, `published` model
`entry.get(...)`, with `none` for an absent field. -/
structure RawEntry where
  publisher : String
  source_type : String
  raw_content : String
  link : String
  title : Option String
  published : Option String
deriving Repr, DecidableEq

/-- The external full-article fetch (`fetch_article`, wrapping HTTP +
trafilatura): `some content` models `(True, content, None)`, `none` models
exhausted-retries failure. -/
abbrev Fetch : Type := String → Option String

/-- The deduplicated record stored in `items_by_url`
(`src/ingest/rss.py:208-221`). The `fetch_error` text comes from the
external fetch and is not tracked beyond presence. -/
structure MergedItem where
  id : String
  url : String
  publishers : List String
  source_types : List String
  ingestion_tier : Nat
  fetch_full_article : Bool
  title : String
  published : String
  content : String
  discovered_at : String
  content_source : String
  fetch_status : Option String
deriving Repr, DecidableEq

/-- A new item created for an unseen URL (`src/ingest/rss.py:206-252`),
including the full-article fetch branch: on fetch success the fetched body
replaces the feed content and provenance becomes `full_article`; on failure
the feed content is kept and provenance is `rss_fallback`. -/
def seedItem (fetch : Fetch) (run_id : String) (e : RawEntry)
    (content : String) : MergedItem :=
  let policy := resolvePolicy e.source_type
  let base : MergedItem :=
    { id := e.link, url := e.link, publishers := [e.publisher],
      source_types := [e.source_type], ingestion_tier := policy.tier,
      fetch_full_article := policy.fetch_full_article,
      title := e.title.getD "", published := e.published.getD "",
      content := content, discovered_at := run_id,
      content_source := "rss", fetch_status := none }
  if policy.fetch_full_article then
    match fetch e.link with
    | some fetched =>
      { base with content := fetched, content_source := "full_article",
                  fetch_status := some "success" }
    | none =>
      { base with content_source := "rss_fallback",
                  fetch_status := some "failed" }
  else base

/-- Folding one further entry into an existing item for the same URL
(`src/ingest/rss.py:167-204`): union publishers and source types, take the
minimum tier, OR the fetch flags, and replace content/title/published only
when the new content is strictly longer. -/
def mergeInto (existing : MergedItem) (e : RawEntry)
    (content : String) : MergedItem :=
  let policy := resolvePolicy e.source_type
  let pubs := if e.publisher ∈ existing.publishers then existing.publishers
              else existing.publishers ++ [e.publisher]
  let sts := if e.source_type ∈ existing.source_types then existing.source_types
             else existing.source_types ++ [e.source_type]
  let base :=
    { existing with
      publishers := pubs, source_types := sts,
      ingestion_tier := min existing.ingestion_tier policy.tier,
      fetch_full_article := existing.fetch_full_article || policy.fetch_full_article }
  if existing.content.length < content.length then
    { base with content := content, title := e.title.getD existing.title,
                published := e.published.getD existing.published }
  else base

/-- The `items_by_url` dict: an insertion-ordered association list with
unique keys, as a Python dict. -/
abbrev ItemMap : Type := List (String × MergedItem)

/-- `items_by_url[url]` lookup (first — and only — binding of the key). -/
def lookupKey (m : ItemMap) (k : String) : Option MergedItem :=
  (m.find? (fun p => p.1 == k)).map (·.2)

/-- In-place value update of an existing key, preserving insertion order. -/
def updateKey (m : ItemMap) (k : String) (v : MergedItem) : ItemMap :=
  m.map (fun p => if p.1 == k then (k, v) else p)

/-- Per-entry body of the ingest loop (`src/ingest/rss.py:144-253`):
reject when `extract_content` returned nothing, when the stripped content
is shorter than the entry's own policy's minimum, or when the entry has no
link; otherwise merge into the existing record for the URL or create a new
one. -/
def ingestStep (fetch : Fetch) (run_id : String) (m : ItemMap)
    (e : RawEntry) : ItemMap :=
  let policy := resolvePolicy e.source_type
  if e.raw_content = "" then m
  else
    let content := pyStrip e.raw_content
    if content.length < policy.min_content_length then m
    else if e.link = "" then m
    else
      match lookupKey m e.link with
      | some existing => updateKey m e.link (mergeInto existing e content)
      | none => m ++ [(e.link, seedItem fetch run_id e content)]

/-- The dedup fold of `ingest_rss` (`src/ingest/rss.py:102-275`) over the
flattened entry stream; the result is `items_by_url`, whose value list (in
insertion order) the function writes out as `all_items`. Feed loading,
logging and the JSON dump are I/O around this fold. -/
def ingest_rss (fetch : Fetch) (run_id : String)
    (entries : List RawEntry) : ItemMap :=
  entries.foldl (ingestStep fetch run_id) []

/-- Whether an entry passes the per-entry rejection filter
(`src/ingest/rss.py:144-162`). -/
def acceptedEntry (e : RawEntry) : Bool :=
  !(e.raw_content == "")
    && !((pyStrip e.raw_content).length < (resolvePolicy e.source_type).min_content_length)
    && !(e.link == "")

/-- The accepted entries carrying a given URL, in input order: exactly the
entries folded into that URL's record. -/
def contributions (entries : List RawEntry) (k : String) : List RawEntry :=
  entries.filter (fun e => acceptedEntry e && e.link == k)

/-! ## Topic mapping application (`src/core/normalize_topics.py`) -/

/-- A parsed `topic_mapping` JSON object: insertion-ordered keys, unique in
a parsed dict; lookup takes the first binding. -/
abbrev TopicMapping : Type := List (String × String)

/-- The loop body of the rewrite pass of `normalize_topics`
(`src/core/normalize_topics.py:79-83`): `if old in mapping:
claim["topic_id"] = mapping[old]` — replace per the mapping, identity if
absent. -/
def applyTopic (mapping : TopicMapping) (c : Claim) : Claim :=
  match mapping.find? (fun p => p.1 == c.topic_id) with
  | some p => { c with topic_id := p.2 }
  | none => c

/-- The rewrite pass of `normalize_topics` (`src/core/normalize_topics.py:79-83`):
each claim's topic id is replaced per the mapping, identity if absent. -/
def applyMapping (mapping : TopicMapping) (claims : List Claim) : List Claim :=
  claims.map (applyTopic mapping)

/-! ## Derived forms used to state the merge-engine properties -/

/-- Folding one further entry with its stripped content into an existing
item — the merge branch of `ingestStep` as a binary operation. -/
def mergeStep (it : MergedItem) (e : RawEntry) : MergedItem :=
  mergeInto it e (pyStrip e.raw_content)

/-- The record a key's accepted contributions produce: seeded from the
first, folded with the rest in order. -/
def itemFor (fetch : Fetch) (run_id : String) (e₀ : RawEntry)
    (rest : List RawEntry) : MergedItem :=
  rest.foldl mergeStep (seedItem fetch run_id e₀ (pyStrip e₀.raw_content))

/-- Per-key view of the fold: how the (possibly absent) record for one key
evolves as that key's accepted entries arrive. -/
def foldKey (fetch : Fetch) (run_id : String) (acc : Option MergedItem)
    (es : List RawEntry) : Option MergedItem :=
  es.foldl
    (fun acc e =>
      match acc with
      | some it => some (mergeStep it e)
      | none => some (seedItem fetch run_id e (pyStrip e.raw_content)))
    acc

/-- The content an accepted entry effectively contributes when it creates
the record: the fetched body if its policy demands a full-article fetch
and the fetch succeeds, its stripped feed content otherwise. -/
def effContent (fetch : Fetch) (e : RawEntry) : String :=
  if (resolvePolicy e.source_type).fetch_full_article then
    match fetch e.link with
    | some fetched => fetched
    | none => pyStrip e.raw_content
  else pyStrip e.raw_content

/-- The longest string of `x :: xs`, earliest on ties: the fold the merge
loop performs with its strictly-longer replacement test. -/
def firstMax (x : String) (xs : List String) : String :=
  xs.foldl (fun acc s => if acc.length < s.length then s else acc) x

/-! ## Concrete fixtures used by witnesses and counterexamples -/

/-- An oracle that always answers `YES`. -/
def yesOracle : Oracle := fun _ _ _ => .ok "YES"

/-- An oracle that always answers `NO`. -/
def noOracle : Oracle := fun _ _ _ => .ok "NO"

/-- An oracle whose call always raises (network failure). -/
def errOracle : Oracle := fun _ _ _ => .error "APIConnectionError"

/-- A `reported` claim citing two distinct sources (spec §8 scenario). -/
def claimR2 : Claim :=
  { text := "X launched Y", confidence := "reported",
    source_ids := ["s1", "s2"], topic_id := "t1" }

/-- A raw item on topic `t1`, giving `claimR2` nonempty topic evidence. -/
def itemT1 : RawItem :=
  { id := "s1", content := "coverage of the launch", topic_id := some "t1" }

/-- `claimR2` after the corroboration rule fired. -/
def claimR2corro : Claim := { claimR2 with confidence := "corroborated" }

/-- `claimR2` after a contestation signal. -/
def claimR2cont : Claim := { claimR2 with confidence := "contested" }

/-- A `reported` claim citing the same source key twice. -/
def claimDup : Claim :=
  { text := "X launched Y", confidence := "reported",
    source_ids := ["s1", "s1"], topic_id := "t1" }

/-- A `speculative` claim with many sources. -/
def claimSpec3 : Claim :=
  { text := "Z may follow", confidence := "speculative",
    source_ids := ["s1", "s2", "s3"], topic_id := "t1" }

/-- A `reported` claim citing two ids that resolve to no item. -/
def claimGhost : Claim :=
  { text := "W acquired V", confidence := "reported",
    source_ids := ["missing1", "missing2"], topic_id := "t9" }

/-- A fetch collaborator that always fails (exhausted retries). -/
def noFetch : Fetch := fun _ => none

/-- A fetch collaborator that succeeds with a 101-character article body —
long enough for `fetch_article` to report success (it requires more than
100 characters), yet shorter than the feed-supplied content below. -/
def fetch101 : Fetch := fun _ => some ⟨List.replicate 101 'f'⟩

/-- A `news` entry (tier 1, fetch demanded, minimum length 0) whose
feed-supplied content has 120 characters. -/
def entryNews : RawEntry :=
  { publisher := "FT", source_type := "news",
    raw_content := ⟨List.replicate 120 'a'⟩, link := "https://n/1",
    title := some "T", published := some "D" }

/-- A `news` entry with no title in the feed. -/
def entryNoTitle : RawEntry :=
  { publisher := "FT", source_type := "news", raw_content := "x",
    link := "https://n/2", title := none, published := none }

/-- A `frontier_lab` entry (tier 3) for the dedup scenario. -/
def entryLab : RawEntry :=
  { publisher := "P1", source_type := "frontier_lab",
    raw_content := ⟨List.replicate 120 'a'⟩, link := "https://n/3",
    title := some "T1", published := some "D1" }

/-- A `press_release` entry (tier 4) sharing `entryLab`'s URL with longer
content. -/
def entryGov : RawEntry :=
  { publisher := "P2", source_type := "press_release",
    raw_content := ⟨List.replicate 150 'b'⟩, link := "https://n/3",
    title := some "T2", published := some "D2" }

/-- A `news` entry (tier 1, fetch demanded, minimum length 0) with short
content, for the dedup witnesses. -/
def entryN1 : RawEntry :=
  { publisher := "A", source_type := "news", raw_content := "alpha",
    link := "https://n/4", title := some "TA", published := some "DA" }

/-- A `community_blog` entry (tier 5, fetch demanded, minimum length 0)
sharing `entryN1`'s URL with strictly longer content. -/
def entryC2 : RawEntry :=
  { publisher := "B", source_type := "community_blog",
    raw_content := "alphabeta", link := "https://n/4", title := some "TB",
    published := some "DB" }

/-- An entry with no link (`entry.get("link", "")` empty). -/
def entryNoLink : RawEntry :=
  { publisher := "P", source_type := "news", raw_content := "hello",
    link := "", title := some "T", published := none }

/-- A chained topic mapping: the value `"b"` is itself a key mapped on. -/
def mapChain : TopicMapping := [("a", "b"), ("b", "c")]

/-- The spec §8 topic-mapping scenario, whose only key-valued value is a
fixed point. -/
def mapGpt : TopicMapping :=
  [("gpt5_release", "gpt5_release"), ("gpt_5_launch", "gpt5_release")]

/-- A claim on provisional topic `"a"`. -/
def claimTopicA : Claim :=
  { text := "x", confidence := "reported", source_ids := [], topic_id := "a" }

/-- A claim on provisional topic `"gpt_5_launch"`. -/
def claimGptLaunch : Claim :=
  { text := "x", confidence := "reported", source_ids := [],
    topic_id := "gpt_5_launch" }

/-! ## Helper lemmas about `verify` -/

theorem mapExcept_ok {α β : Type} (f : α → Except String β) :
    ∀ (l : List α) (out : List β), mapExcept f l = .ok out →
      List.Forall₂ (fun a b => f a = .ok b) l out := by
  intro l
  induction l with
  | nil =>
    intro out h
    simp only [mapExcept] at h
    cases h
    exact List.Forall₂.nil
  | cons a as ih =>
    intro out h
    simp only [mapExcept] at h
    cases hfa : f a with
    | error e => rw [hfa] at h; cases h
    | ok b =>
      rw [hfa] at h
      cases hrest : mapExcept f as with
      | error e => rw [hrest] at h; cases h
      | ok bs =>
        rw [hrest] at h
        cases h
        exact List.Forall₂.cons hfa (ih bs hrest)

theorem rule1_confidence (c : Claim) :
    (rule1 c).confidence = c.confidence ∨ (rule1 c).confidence = "corroborated" := by
  unfold rule1
  split
  · exact Or.inr rfl
  · exact Or.inl rfl

theorem rule1_frame (c : Claim) :
    (rule1 c).text = c.text ∧ (rule1 c).source_ids = c.source_ids ∧
      (rule1 c).topic_id = c.topic_id := by
  unfold rule1
  split <;> exact ⟨rfl, rfl, rfl⟩

theorem rule1_fires (c : Claim) (h1 : c.confidence = "reported")
    (h2 : 2 ≤ c.source_ids.length) :
    rule1 c = { c with confidence := "corroborated" } := by
  unfold rule1
  rw [if_pos ⟨h2, h1⟩]

theorem rule1_skips_other (c : Claim) (h : c.confidence ≠ "reported") :
    rule1 c = c := by
  unfold rule1
  rw [if_neg (fun hc => h hc.2)]

theorem rule1_skips_single (c : Claim) (h : c.source_ids.length < 2) :
    rule1 c = c := by
  unfold rule1
  rw [if_neg (fun hc => absurd hc.1 (Nat.not_le_of_lt h))]

theorem verifyClaim_of_contested (oracle : Oracle) (ev : String → List String)
    (c : Claim)
    (h : detect_contestation oracle c.text (ev c.topic_id) c.topic_id = .ok true) :
    verifyClaim oracle ev c = .ok { rule1 c with confidence := "contested" } := by
  unfold verifyClaim
  rw [h]

theorem verifyClaim_of_not_contested (oracle : Oracle) (ev : String → List String)
    (c : Claim)
    (h : detect_contestation oracle c.text (ev c.topic_id) c.topic_id = .ok false) :
    verifyClaim oracle ev c = .ok (rule1 c) := by
  unfold verifyClaim
  rw [h]

theorem verifyClaim_of_error (oracle : Oracle) (ev : String → List String)
    (c : Claim) (e : String)
    (h : detect_contestation oracle c.text (ev c.topic_id) c.topic_id = .error e) :
    verifyClaim oracle ev c = .error e := by
  unfold verifyClaim
  rw [h]

theorem detect_contestation_empty (oracle : Oracle) (claim_text topic_id : String) :
    detect_contestation oracle claim_text [] topic_id = .ok false := rfl

theorem detect_contestation_of_answer (oracle : Oracle)
    (claim_text topic_id : String) (other_sources : List String) (ans : String)
    (hne : other_sources ≠ [])
    (h : oracle claim_text other_sources topic_id = .ok ans) :
    detect_contestation oracle claim_text other_sources topic_id
      = .ok (pyUpper (pyStrip ans) == "YES") := by
  unfold detect_contestation
  rw [if_neg (by simpa using hne), h]

theorem verify_ok_forall₂ (oracle : Oracle) (claims : List Claim)
    (raw_data : List RawItem) (out : List Claim)
    (h : verify oracle claims raw_data = .ok out) :
    List.Forall₂
      (fun c c' => verifyClaim oracle (topicSources claims raw_data) c = .ok c')
      claims out :=
  mapExcept_ok _ claims out h

theorem verifyClaim_frame (oracle : Oracle) (ev : String → List String)
    (c c' : Claim) (h : verifyClaim oracle ev c = .ok c') :
    c'.text = c.text ∧ c'.source_ids = c.source_ids ∧ c'.topic_id = c.topic_id ∧
      (c'.confidence = c.confidence ∨ c'.confidence = "corroborated" ∨
        c'.confidence = "contested") := by
  cases hdet : detect_contestation oracle c.text (ev c.topic_id) c.topic_id with
  | error e =>
    rw [verifyClaim_of_error oracle ev c e hdet] at h
    cases h
  | ok b =>
    cases b with
    | false =>
      rw [verifyClaim_of_not_contested oracle ev c hdet] at h
      injection h with h
      subst h
      exact ⟨(rule1_frame c).1, (rule1_frame c).2.1, (rule1_frame c).2.2,
        (rule1_confidence c).imp id Or.inl⟩
    | true =>
      rw [verifyClaim_of_contested oracle ev c hdet] at h
      injection h with h
      subst h
      exact ⟨(rule1_frame c).1, (rule1_frame c).2.1, (rule1_frame c).2.2,
        Or.inr (Or.inr rfl)⟩

/-! ## Claims C1, C2, C3, C8, C9, C10 (`verify`) -/

/-- Claim C1 (confirmed): for every claim processed by `verify`, if the
contestation oracle answers yes for that claim (the evidence list for its
topic is nonempty, so the oracle is consulted, and its answer strips and
upcases to `YES`), the claim's final confidence is `contested`, whatever
its initial confidence, its source count, and whatever rule 1 produced. -/
theorem contestation_dominance (oracle : Oracle) (claims : List Claim)
    (raw_data : List RawItem) (out : List Claim) (i : Nat)
    (hi : i < claims.length)
    (hout : verify oracle claims raw_data = .ok out) (ans : String)
    (hne : topicSources claims raw_data (claims.get ⟨i, hi⟩).topic_id ≠ [])
    (hans : oracle (claims.get ⟨i, hi⟩).text
      (topicSources claims raw_data (claims.get ⟨i, hi⟩).topic_id)
      (claims.get ⟨i, hi⟩).topic_id = .ok ans)
    (hyes : pyUpper (pyStrip ans) = "YES") :
    ∃ hi' : i < out.length, (out.get ⟨i, hi'⟩).confidence = "contested" := by
  have hf := verify_ok_forall₂ oracle claims raw_data out hout
  have hi' : i < out.length := hf.length_eq ▸ hi
  refine ⟨hi', ?_⟩
  have hvc := hf.get hi hi'
  have hdet : detect_contestation oracle (claims.get ⟨i, hi⟩).text
      (topicSources claims raw_data (claims.get ⟨i, hi⟩).topic_id)
      (claims.get ⟨i, hi⟩).topic_id = .ok true := by
    rw [detect_contestation_of_answer oracle _ _ _ ans hne hans, hyes]
    rfl
  rw [verifyClaim_of_contested oracle _ _ hdet] at hvc
  injection hvc with hvc
  rw [← hvc]

/-- Witness for C1: the spec §8 scenario — `claimR2` with a yes-oracle ends
`contested`. -/
theorem contestation_dominance_witness :
    ∃ hi' : 0 < ([claimR2cont] : List Claim).length,
      (([claimR2cont] : List Claim).get ⟨0, hi'⟩).confidence = "contested" :=
  contestation_dominance yesOracle [claimR2] [itemT1] [claimR2cont] 0
    (by decide) (by rfl) "YES" (by decide) (by rfl) (by rfl)

/-- Claim C8 (confirmed): `verify` returns the same claims in the same
order, modifying only `confidence` — `text`, `source_ids` and `topic_id`
are unchanged, no claim added or removed — and each final confidence is
the initial one, `corroborated`, or `contested`. (`raw_data` is a read-only
argument of the embedding, so the raw item set is unmodified by
construction.) -/
theorem verify_frame (oracle : Oracle) (claims : List Claim)
    (raw_data : List RawItem) (out : List Claim)
    (hout : verify oracle claims raw_data = .ok out) :
    out.length = claims.length ∧
    ∀ i (hi : i < claims.length) (hi' : i < out.length),
      (out.get ⟨i, hi'⟩).text = (claims.get ⟨i, hi⟩).text ∧
      (out.get ⟨i, hi'⟩).source_ids = (claims.get ⟨i, hi⟩).source_ids ∧
      (out.get ⟨i, hi'⟩).topic_id = (claims.get ⟨i, hi⟩).topic_id ∧
      ((out.get ⟨i, hi'⟩).confidence = (claims.get ⟨i, hi⟩).confidence ∨
       (out.get ⟨i, hi'⟩).confidence = "corroborated" ∨
       (out.get ⟨i, hi'⟩).confidence = "contested") := by
  have hf := verify_ok_forall₂ oracle claims raw_data out hout
  exact ⟨hf.length_eq.symm, fun i hi hi' =>
    verifyClaim_frame oracle _ _ _ (hf.get hi hi')⟩

/-- Witness for C8 at a concrete run. -/
theorem verify_frame_witness :
    ([claimR2corro] : List Claim).length = ([claimR2] : List Claim).length ∧
    ∀ i (hi : i < ([claimR2] : List Claim).length)
      (hi' : i < ([claimR2corro] : List Claim).length),
      (([claimR2corro] : List Claim).get ⟨i, hi'⟩).text
          = (([claimR2] : List Claim).get ⟨i, hi⟩).text ∧
      (([claimR2corro] : List Claim).get ⟨i, hi'⟩).source_ids
          = (([claimR2] : List Claim).get ⟨i, hi⟩).source_ids ∧
      (([claimR2corro] : List Claim).get ⟨i, hi'⟩).topic_id
          = (([claimR2] : List Claim).get ⟨i, hi⟩).topic_id ∧
      ((([claimR2corro] : List Claim).get ⟨i, hi'⟩).confidence
            = (([claimR2] : List Claim).get ⟨i, hi⟩).confidence ∨
       (([claimR2corro] : List Claim).get ⟨i, hi'⟩).confidence = "corroborated" ∨
       (([claimR2corro] : List Claim).get ⟨i, hi'⟩).confidence = "contested") :=
  verify_frame noOracle [claimR2] [itemT1] [claimR2corro] (by rfl)

/-- Claim C2 (corrected), counterexample: an oracle whose call errors makes
`verify` abort the run — the uncaught exception propagates and no claim
list is produced — contradicting "verification never aborts a run because
the oracle is degraded". The claim's topic has nonempty evidence, so the
oracle is consulted. -/
theorem fail_open_counterexample :
    verify errOracle [claimR2] [itemT1] = .error "APIConnectionError" := by rfl

/-- Claim C2 (corrected, amended): if the oracle returns any answer other
than a strict yes (e.g. `NO` or unparseable text), the contestation check
is treated as "no" and the claim keeps the structural rule-1 result; but if
the oracle call errors, the error is uncaught and propagates, aborting the
run at that claim. -/
theorem fail_open_amended (oracle : Oracle) (ev : String → List String)
    (c : Claim) :
    (∀ ans : String, oracle c.text (ev c.topic_id) c.topic_id = .ok ans →
      pyUpper (pyStrip ans) ≠ "YES" →
      verifyClaim oracle ev c = .ok (rule1 c)) ∧
    (∀ e : String, ev c.topic_id ≠ [] →
      oracle c.text (ev c.topic_id) c.topic_id = .error e →
      verifyClaim oracle ev c = .error e) := by
  constructor
  · intro ans hans hne
    by_cases hev : ev c.topic_id = []
    · apply verifyClaim_of_not_contested
      rw [hev]
      exact detect_contestation_empty oracle c.text c.topic_id
    · apply verifyClaim_of_not_contested
      rw [detect_contestation_of_answer oracle _ _ _ ans hev hans]
      have : (pyUpper (pyStrip ans) == "YES") = false := by
        simpa using hne
      rw [this]
  · intro e hev herr
    apply verifyClaim_of_error
    unfold detect_contestation
    rw [if_neg (by simpa using hev), herr]

/-- Witness for the amended C2: a `NO` answer leaves the rule-1 result in
place, an erroring call propagates the error. -/
theorem fail_open_amended_witness :
    verifyClaim noOracle (fun _ => ["coverage of the launch"]) claimR2
        = .ok (rule1 claimR2) ∧
    verifyClaim errOracle (fun _ => ["coverage of the launch"]) claimR2
        = .error "APIConnectionError" :=
  ⟨(fail_open_amended noOracle (fun _ => ["coverage of the launch"]) claimR2).1
      "NO" (by rfl) (by decide),
   (fail_open_amended errOracle (fun _ => ["coverage of the launch"]) claimR2).2
      "APIConnectionError" (by decide) (by rfl)⟩

/-- Claim C3 (corrected), counterexample: a `reported` claim whose
`source_ids` list repeats one key (`["s1", "s1"]`, a single distinct
source) is nevertheless upgraded to `corroborated`: the code counts
`len(source_ids)` without deduplicating, so "the same key twice" does
count as two sources. -/
theorem corroboration_counterexample :
    claimDup.confidence = "reported" ∧
    claimDup.source_ids = ["s1", "s1"] ∧
    claimDup.source_ids.dedup.length = 1 ∧
    verify noOracle [claimDup] []
      = .ok [{ claimDup with confidence := "corroborated" }] := by
  refine ⟨rfl, rfl, by decide, by rfl⟩

/-- Claim C3 (corrected, amended): with no contestation signal, rule 1
upgrades a claim to `corroborated` exactly when its initial confidence is
`reported` and its `source_ids` list has length ≥ 2 — duplicates included;
the rule never fires for a non-`reported` initial confidence and never for
a list of fewer than two entries. -/
theorem corroboration_amended (oracle : Oracle) (ev : String → List String)
    (c : Claim)
    (hdet : detect_contestation oracle c.text (ev c.topic_id) c.topic_id
      = .ok false) :
    (c.confidence = "reported" → 2 ≤ c.source_ids.length →
      verifyClaim oracle ev c = .ok { c with confidence := "corroborated" }) ∧
    (c.confidence ≠ "reported" → verifyClaim oracle ev c = .ok c) ∧
    (c.source_ids.length < 2 → verifyClaim oracle ev c = .ok c) := by
  refine ⟨fun h1 h2 => ?_, fun h => ?_, fun h => ?_⟩
  · rw [verifyClaim_of_not_contested oracle ev c hdet, rule1_fires c h1 h2]
  · rw [verifyClaim_of_not_contested oracle ev c hdet, rule1_skips_other c h]
  · rw [verifyClaim_of_not_contested oracle ev c hdet, rule1_skips_single c h]

/-- Witness for the amended C3: `claimR2` (reported, two sources) is
upgraded; `claimSpec3` (speculative, three sources) is not. -/
theorem corroboration_amended_witness :
    verifyClaim noOracle (fun _ => []) claimR2
        = .ok { claimR2 with confidence := "corroborated" } ∧
    verifyClaim noOracle (fun _ => []) claimSpec3 = .ok claimSpec3 :=
  ⟨(corroboration_amended noOracle (fun _ => []) claimR2 (by rfl)).1
      (by rfl) (by decide),
   (corroboration_amended noOracle (fun _ => []) claimSpec3 (by rfl)).2.1
      (by decide)⟩

/-- Claim C9 (confirmed): the corroboration count is the length of
`source_ids`, with no check that the keys exist among the raw items: a
`reported` claim whose ids all resolve to no item still becomes
`corroborated` (absent a contestation signal) and is fully processed —
it appears in the output at its position rather than being dropped. -/
theorem unknown_sources_corroborate (oracle : Oracle) (claims : List Claim)
    (raw_data : List RawItem) (out : List Claim) (i : Nat)
    (hi : i < claims.length)
    (hconf : (claims.get ⟨i, hi⟩).confidence = "reported")
    (hlen : 2 ≤ (claims.get ⟨i, hi⟩).source_ids.length)
    (hunknown : ∀ sid ∈ (claims.get ⟨i, hi⟩).source_ids,
      items_by_id raw_data sid = none)
    (hdet : detect_contestation oracle (claims.get ⟨i, hi⟩).text
      (topicSources claims raw_data (claims.get ⟨i, hi⟩).topic_id)
      (claims.get ⟨i, hi⟩).topic_id = .ok false)
    (hout : verify oracle claims raw_data = .ok out) :
    ∃ hi' : i < out.length, (out.get ⟨i, hi'⟩).confidence = "corroborated" := by
  have hf := verify_ok_forall₂ oracle claims raw_data out hout
  have hi' : i < out.length := hf.length_eq ▸ hi
  refine ⟨hi', ?_⟩
  have hvc := hf.get hi hi'
  rw [verifyClaim_of_not_contested oracle _ _ hdet,
    rule1_fires _ hconf hlen] at hvc
  injection hvc with hvc
  rw [← hvc]

/-- Witness for C9: `claimGhost` cites two unknown ids over an empty raw
item set and still comes out `corroborated`. -/
theorem unknown_sources_corroborate_witness :
    ∃ hi' : 0 < ([{ claimGhost with confidence := "corroborated" }] :
        List Claim).length,
      (([{ claimGhost with confidence := "corroborated" }] :
        List Claim).get ⟨0, hi'⟩).confidence = "corroborated" :=
  unknown_sources_corroborate noOracle [claimGhost] []
    [{ claimGhost with confidence := "corroborated" }] 0 (by decide)
    (by rfl) (by decide) (by decide) (by rfl) (by rfl)

/-- Claim C10 (confirmed): when the evidence list for a claim's topic is
empty (the topic has no entry in the topic-to-sources map),
`detect_contestation` returns false for every oracle — the external call
is never consulted — so a claim whose initial confidence is not already
`contested` (extraction only assigns `reported`/`inferred`/`speculative`)
cannot end with confidence `contested`. -/
theorem empty_evidence_not_contested (oracle : Oracle) (claims : List Claim)
    (raw_data : List RawItem) (out : List Claim) (i : Nat)
    (hi : i < claims.length)
    (hempty : topicSources claims raw_data (claims.get ⟨i, hi⟩).topic_id = [])
    (hinit : (claims.get ⟨i, hi⟩).confidence ≠ "contested")
    (hout : verify oracle claims raw_data = .ok out) :
    (∀ o : Oracle, detect_contestation o (claims.get ⟨i, hi⟩).text
        (topicSources claims raw_data (claims.get ⟨i, hi⟩).topic_id)
        (claims.get ⟨i, hi⟩).topic_id = .ok false) ∧
    ∃ hi' : i < out.length, (out.get ⟨i, hi'⟩).confidence ≠ "contested" := by
  have hdetall : ∀ o : Oracle, detect_contestation o (claims.get ⟨i, hi⟩).text
      (topicSources claims raw_data (claims.get ⟨i, hi⟩).topic_id)
      (claims.get ⟨i, hi⟩).topic_id = .ok false := by
    intro o
    rw [hempty]
    exact detect_contestation_empty o _ _
  refine ⟨hdetall, ?_⟩
  have hf := verify_ok_forall₂ oracle claims raw_data out hout
  have hi' : i < out.length := hf.length_eq ▸ hi
  refine ⟨hi', ?_⟩
  have hvc := hf.get hi hi'
  rw [verifyClaim_of_not_contested oracle _ _ (hdetall oracle)] at hvc
  injection hvc with hvc
  rw [← hvc]
  rcases rule1_confidence (claims.get ⟨i, hi⟩) with h | h <;> rw [h]
  · exact hinit
  · decide

/-- Witness for C10: a speculative claim on a topic with no evidence stays
speculative under a yes-oracle. -/
theorem empty_evidence_not_contested_witness :
    (∀ o : Oracle, detect_contestation o
        (([claimSpec3] : List Claim).get ⟨0, by decide⟩).text
        (topicSources [claimSpec3] []
          (([claimSpec3] : List Claim).get ⟨0, by decide⟩).topic_id)
        (([claimSpec3] : List Claim).get ⟨0, by decide⟩).topic_id
        = .ok false) ∧
    ∃ hi' : 0 < ([claimSpec3] : List Claim).length,
      (([claimSpec3] : List Claim).get ⟨0, hi'⟩).confidence ≠ "contested" :=
  empty_evidence_not_contested yesOracle [claimSpec3] [] [claimSpec3] 0
    (by decide) (by rfl) (by decide) (by rfl)

/-! ## Helper lemmas about the merge fold -/

theorem lookupKey_cons (p : String × MergedItem) (m : ItemMap) (k : String) :
    lookupKey (p :: m) k = if p.1 == k then some p.2 else lookupKey m k := by
  by_cases h : p.1 == k
  · simp [lookupKey, List.find?_cons_of_pos, h]
  · simp [lookupKey, List.find?_cons_of_neg, h]

theorem lookupKey_append_single (m : ItemMap) (kk k : String) (v : MergedItem) :
    lookupKey (m ++ [(kk, v)]) k =
      match lookupKey m k with
      | some it => some it
      | none => if kk == k then some v else none := by
  induction m with
  | nil =>
    rw [List.nil_append, lookupKey_cons]
    rfl
  | cons p m ih =>
    rw [List.cons_append, lookupKey_cons, lookupKey_cons]
    by_cases h : p.1 == k
    · rw [if_pos h, if_pos h]
    · rw [if_neg h, if_neg h, ih]

theorem lookupKey_updateKey (m : ItemMap) (kk k : String) (v : MergedItem) :
    lookupKey (updateKey m kk v) k =
      if kk == k then (lookupKey m kk).map (fun _ => v)
      else lookupKey m k := by
  induction m with
  | nil =>
    by_cases h : kk == k <;> simp [lookupKey, updateKey, h]
  | cons p m ih =>
    simp only [updateKey, List.map_cons, beq_iff_eq] at ih ⊢
    by_cases hpkk : p.1 = kk <;> by_cases hkk : kk = k
    · subst hpkk; subst hkk
      simp [lookupKey_cons, beq_iff_eq, ih]
    · subst hpkk
      simp [lookupKey_cons, beq_iff_eq, hkk, ih]
    · subst hkk
      simp [lookupKey_cons, beq_iff_eq, hpkk, ih]
    · simp [lookupKey_cons, beq_iff_eq, hpkk, hkk, ih]

theorem lookupKey_ingestStep (fetch : Fetch) (rid : String) (m : ItemMap)
    (e : RawEntry) (k : String) :
    lookupKey (ingestStep fetch rid m e) k =
      if acceptedEntry e && e.link == k then
        match lookupKey m k with
        | some it => some (mergeStep it e)
        | none => some (seedItem fetch rid e (pyStrip e.raw_content))
      else lookupKey m k := by
  by_cases hacc : acceptedEntry e = true
  · have hparts := hacc
    simp only [acceptedEntry, Bool.and_eq_true, Bool.not_eq_true',
      beq_eq_false_iff_ne, ne_eq, decide_eq_false_iff_not, not_lt] at hparts
    obtain ⟨⟨h1, h2⟩, h3⟩ := hparts
    unfold ingestStep
    simp only [if_neg h1, if_neg (not_lt_of_ge h2), if_neg h3, hacc,
      Bool.true_and]
    by_cases hk : e.link = k
    · subst hk
      simp only [beq_self_eq_true, if_pos]
      cases hm : lookupKey m e.link with
      | some existing =>
        simp only [hm, lookupKey_updateKey, beq_self_eq_true, if_pos,
          Option.map_some]
        rfl
      | none =>
        simp only [hm, lookupKey_append_single, beq_self_eq_true, if_pos]
    · have hk' : (e.link == k) = false := by simpa using hk
      simp only [hk', Bool.false_eq_true, if_false]
      cases hm : lookupKey m e.link with
      | some existing =>
        simp only [hm, lookupKey_updateKey, hk', Bool.false_eq_true, if_false]
      | none =>
        simp only [hm, lookupKey_append_single, hk', Bool.false_eq_true,
          if_false]
        cases lookupKey m k <;> rfl
  · have hstep : ingestStep fetch rid m e = m := by
      unfold ingestStep
      by_cases h1 : e.raw_content = ""
      · simp [h1]
      · by_cases h2 : (pyStrip e.raw_content).length
            < (resolvePolicy e.source_type).min_content_length
        · simp [h1, h2]
        · by_cases h3 : e.link = ""
          · simp [h1, h2, h3]
          · exact absurd (by simp [acceptedEntry, h1, h2, h3, not_lt.mp h2])
              hacc
    have hacc' : acceptedEntry e = false := by
      cases h : acceptedEntry e
      · rfl
      · exact absurd h hacc
    rw [hstep, hacc']
    simp

theorem foldKey_some (fetch : Fetch) (rid : String) (it : MergedItem)
    (es : List RawEntry) :
    foldKey fetch rid (some it) es = some (es.foldl mergeStep it) := by
  induction es generalizing it with
  | nil => rfl
  | cons e es ih =>
    rw [foldKey, List.foldl_cons, ← foldKey, ih, List.foldl_cons]

theorem lookupKey_foldl (fetch : Fetch) (rid : String)
    (entries : List RawEntry) (m : ItemMap) (k : String) :
    lookupKey (entries.foldl (ingestStep fetch rid) m) k =
      foldKey fetch rid (lookupKey m k)
        (entries.filter (fun e => acceptedEntry e && e.link == k)) := by
  induction entries generalizing m with
  | nil => rfl
  | cons e es ih =>
    rw [List.foldl_cons, ih, List.filter_cons]
    by_cases h : (acceptedEntry e && e.link == k) = true
    · rw [if_pos h, lookupKey_ingestStep, if_pos h]
      cases hm : lookupKey m k with
      | some it => simp only [foldKey, List.foldl_cons]
      | none => simp only [foldKey, List.foldl_cons]
    · have h' : (acceptedEntry e && e.link == k) = false := by
        cases hb : (acceptedEntry e && e.link == k)
        · rfl
        · exact absurd hb h
      rw [if_neg h, lookupKey_ingestStep, h']
      simp

theorem lookupKey_ingest_rss (fetch : Fetch) (rid : String)
    (entries : List RawEntry) (k : String) :
    lookupKey (ingest_rss fetch rid entries) k =
      match contributions entries k with
      | [] => none
      | e₀ :: rest => some (itemFor fetch rid e₀ rest) := by
  rw [ingest_rss, lookupKey_foldl]
  show foldKey fetch rid none (contributions entries k) = _
  cases h : contributions entries k with
  | nil => rfl
  | cons e₀ rest =>
    rw [foldKey, List.foldl_cons, ← foldKey, foldKey_some]
    rfl

theorem mergeStep_tier (it : MergedItem) (e : RawEntry) :
    (mergeStep it e).ingestion_tier
      = min it.ingestion_tier (resolvePolicy e.source_type).tier := by
  unfold mergeStep mergeInto
  split <;> split <;> split <;> rfl

theorem mergeStep_flag (it : MergedItem) (e : RawEntry) :
    (mergeStep it e).fetch_full_article
      = (it.fetch_full_article || (resolvePolicy e.source_type).fetch_full_article) := by
  unfold mergeStep mergeInto
  split <;> split <;> split <;> rfl

theorem mergeStep_content (it : MergedItem) (e : RawEntry) :
    (mergeStep it e).content =
      if it.content.length < (pyStrip e.raw_content).length then
        pyStrip e.raw_content
      else it.content := by
  unfold mergeStep mergeInto
  split <;> split <;> split <;> rfl

theorem seedItem_tier (fetch : Fetch) (rid : String) (e : RawEntry)
    (c : String) :
    (seedItem fetch rid e c).ingestion_tier
      = (resolvePolicy e.source_type).tier := by
  unfold seedItem
  cases hf : (resolvePolicy e.source_type).fetch_full_article
  · simp [hf]
  · cases hl : fetch e.link <;> simp [hf, hl]

theorem seedItem_flag (fetch : Fetch) (rid : String) (e : RawEntry)
    (c : String) :
    (seedItem fetch rid e c).fetch_full_article
      = (resolvePolicy e.source_type).fetch_full_article := by
  unfold seedItem
  cases hf : (resolvePolicy e.source_type).fetch_full_article
  · simp [hf]
  · cases hl : fetch e.link <;> simp [hf, hl]

theorem seedItem_content (fetch : Fetch) (rid : String) (e : RawEntry) :
    (seedItem fetch rid e (pyStrip e.raw_content)).content
      = effContent fetch e := by
  unfold seedItem effContent
  cases hf : (resolvePolicy e.source_type).fetch_full_article
  · simp [hf]
  · cases hl : fetch e.link <;> simp [hf, hl]

theorem foldl_mergeStep_tier (rest : List RawEntry) (it : MergedItem) :
    (rest.foldl mergeStep it).ingestion_tier =
      (rest.map (fun e => (resolvePolicy e.source_type).tier)).foldl min
        it.ingestion_tier := by
  induction rest generalizing it with
  | nil => rfl
  | cons e es ih =>
    rw [List.foldl_cons, List.map_cons, List.foldl_cons, ih, mergeStep_tier]

theorem foldl_mergeStep_flag (rest : List RawEntry) (it : MergedItem) :
    (rest.foldl mergeStep it).fetch_full_article =
      (it.fetch_full_article
        || rest.any (fun e => (resolvePolicy e.source_type).fetch_full_article)) := by
  induction rest generalizing it with
  | nil => simp
  | cons e es ih =>
    rw [List.foldl_cons, ih, mergeStep_flag, List.any_cons, Bool.or_assoc]

theorem firstMax_cons (x s : String) (l : List String) :
    firstMax x (s :: l) = firstMax (if x.length < s.length then s else x) l :=
  rfl

theorem foldl_mergeStep_content (rest : List RawEntry) (it : MergedItem) :
    (rest.foldl mergeStep it).content =
      firstMax it.content (rest.map (fun e => pyStrip e.raw_content)) := by
  induction rest generalizing it with
  | nil => rfl
  | cons e es ih =>
    rw [List.foldl_cons, ih, List.map_cons, firstMax_cons, mergeStep_content]

theorem foldl_min_mem (l : List Nat) : ∀ a : Nat, l.foldl min a ∈ a :: l := by
  induction l with
  | nil => intro a; simp
  | cons x xs ih =>
    intro a
    rw [List.foldl_cons]
    rcases List.mem_cons.mp (ih (min a x)) with h | h
    · rcases min_choice a x with hm | hm
      · exact List.mem_cons.mpr (Or.inl (h.trans hm))
      · exact List.mem_cons.mpr
          (Or.inr (List.mem_cons.mpr (Or.inl (h.trans hm))))
    · exact List.mem_cons.mpr (Or.inr (List.mem_cons.mpr (Or.inr h)))

theorem foldl_min_le (l : List Nat) :
    ∀ a : Nat, ∀ x ∈ a :: l, l.foldl min a ≤ x := by
  induction l with
  | nil =>
    intro a x hx
    rcases List.mem_cons.mp hx with h | h
    · subst h; exact le_refl _
    · cases h
  | cons y ys ih =>
    intro a x hx
    rw [List.foldl_cons]
    rcases List.mem_cons.mp hx with h | h
    · rw [h]
      exact le_trans (ih (min a y) _ (List.mem_cons_self _ _))
        (min_le_left a y)
    · rcases List.mem_cons.mp h with h' | h'
      · rw [h']
        exact le_trans (ih (min a y) _ (List.mem_cons_self _ _))
          (min_le_right a y)
      · exact ih (min a y) x (List.mem_cons_of_mem _ h')

theorem firstMax_mem (xs : List String) :
    ∀ x : String, firstMax x xs ∈ x :: xs := by
  induction xs with
  | nil => intro x; simp [firstMax]
  | cons s ss ih =>
    intro x
    rw [firstMax_cons]
    by_cases h : x.length < s.length
    · rw [if_pos h]
      rcases List.mem_cons.mp (ih s) with h' | h'
      · exact List.mem_cons.mpr (Or.inr (List.mem_cons.mpr (Or.inl h')))
      · exact List.mem_cons.mpr (Or.inr (List.mem_cons.mpr (Or.inr h')))
    · rw [if_neg h]
      rcases List.mem_cons.mp (ih x) with h' | h'
      · exact List.mem_cons.mpr (Or.inl h')
      · exact List.mem_cons.mpr (Or.inr (List.mem_cons.mpr (Or.inr h')))

theorem firstMax_le (xs : List String) :
    ∀ x : String, ∀ s ∈ x :: xs, s.length ≤ (firstMax x xs).length := by
  induction xs with
  | nil =>
    intro x s hs
    rcases List.mem_cons.mp hs with h | h
    · subst h; exact le_refl _
    · cases h
  | cons y ys ih =>
    intro x s hs
    rw [firstMax_cons]
    have hhead : x.length ≤ (if x.length < y.length then y else x).length := by
      by_cases h : x.length < y.length
      · rw [if_pos h]; exact le_of_lt h
      · rw [if_neg h]
    have hy : y.length ≤ (if x.length < y.length then y else x).length := by
      by_cases h : x.length < y.length
      · rw [if_pos h]
      · rw [if_neg h]; exact le_of_not_lt h
    rcases List.mem_cons.mp hs with h | h
    · rw [h]
      exact le_trans hhead (ih _ _ (List.mem_cons_self _ _))
    · rcases List.mem_cons.mp h with h' | h'
      · rw [h']
        exact le_trans hy (ih _ _ (List.mem_cons_self _ _))
      · exact ih _ s (List.mem_cons_of_mem _ h')

theorem perm_any_eq {α : Type} (l₁ l₂ : List α) (h : List.Perm l₁ l₂)
    (p : α → Bool) : l₁.any p = l₂.any p := by
  cases h1 : l₁.any p <;> cases h2 : l₂.any p
  · rfl
  · obtain ⟨x, hx, hpx⟩ := List.any_eq_true.mp h2
    have hx1 : x ∈ l₁ := h.mem_iff.mpr hx
    have hcon : l₁.any p = true := List.any_eq_true.mpr ⟨x, hx1, hpx⟩
    rw [h1] at hcon
    exact Bool.noConfusion hcon
  · obtain ⟨x, hx, hpx⟩ := List.any_eq_true.mp h1
    have hx2 : x ∈ l₂ := h.mem_iff.mp hx
    have hcon : l₂.any p = true := List.any_eq_true.mpr ⟨x, hx2, hpx⟩
    rw [h2] at hcon
    exact Bool.noConfusion hcon
  · rfl

theorem lookupKey_some_contrib (fetch : Fetch) (rid : String)
    (entries : List RawEntry) (k : String) (it : MergedItem)
    (h : lookupKey (ingest_rss fetch rid entries) k = some it) :
    ∃ e₀ rest, contributions entries k = e₀ :: rest ∧
      it = itemFor fetch rid e₀ rest := by
  have hm := lookupKey_ingest_rss fetch rid entries k
  rw [h] at hm
  cases hc : contributions entries k with
  | nil => rw [hc] at hm; cases hm
  | cons e₀ rest =>
    rw [hc] at hm
    refine ⟨e₀, rest, rfl, ?_⟩
    injection hm

theorem itemFor_tier (fetch : Fetch) (rid : String) (e₀ : RawEntry)
    (rest : List RawEntry) :
    (itemFor fetch rid e₀ rest).ingestion_tier =
      (rest.map (fun e => (resolvePolicy e.source_type).tier)).foldl min
        (resolvePolicy e₀.source_type).tier := by
  unfold itemFor
  rw [foldl_mergeStep_tier, seedItem_tier]

theorem itemFor_flag (fetch : Fetch) (rid : String) (e₀ : RawEntry)
    (rest : List RawEntry) :
    (itemFor fetch rid e₀ rest).fetch_full_article =
      ((resolvePolicy e₀.source_type).fetch_full_article
        || rest.any (fun e => (resolvePolicy e.source_type).fetch_full_article)) := by
  unfold itemFor
  rw [foldl_mergeStep_flag, seedItem_flag]

theorem itemFor_content (fetch : Fetch) (rid : String) (e₀ : RawEntry)
    (rest : List RawEntry) :
    (itemFor fetch rid e₀ rest).content =
      firstMax (effContent fetch e₀)
        (rest.map (fun e => pyStrip e.raw_content)) := by
  unfold itemFor
  rw [foldl_mergeStep_content, seedItem_content]

theorem tier_flag_char (fetch : Fetch) (rid : String)
    (entries : List RawEntry) (k : String) (it : MergedItem)
    (h : lookupKey (ingest_rss fetch rid entries) k = some it) :
    it.ingestion_tier ∈
        (contributions entries k).map (fun e => (resolvePolicy e.source_type).tier) ∧
      (∀ t ∈ (contributions entries k).map
          (fun e => (resolvePolicy e.source_type).tier),
        it.ingestion_tier ≤ t) ∧
      it.fetch_full_article =
        (contributions entries k).any
          (fun e => (resolvePolicy e.source_type).fetch_full_article) := by
  obtain ⟨e₀, rest, hc, rfl⟩ := lookupKey_some_contrib fetch rid entries k it h
  rw [hc, List.map_cons]
  refine ⟨?_, ?_, ?_⟩
  · rw [itemFor_tier]
    exact foldl_min_mem _ _
  · rw [itemFor_tier]
    exact foldl_min_le _ _
  · rw [itemFor_flag, List.any_cons]

/-! ## Claims C4, C5, C6 (merge engine) -/

set_option maxRecDepth 100000 in
/-- Claim C4 (corrected), counterexample: a single `news` entry whose feed
content has 120 characters, but whose policy demands a full-article fetch
that succeeds with a 101-character body (long enough for `fetch_article`
to report success): the merged record's final content has 101 characters,
strictly less than the 120 of its only contributing entry — the fetched
body replaces the feed body, so final length is not ≥ max over the
entries' feed contents. -/
theorem content_growth_counterexample :
    contributions [entryNews] "https://n/1" = [entryNews] ∧
    (pyStrip entryNews.raw_content).length = 120 ∧
    (lookupKey (ingest_rss fetch101 "run1" [entryNews]) "https://n/1").map
        (fun it => it.content.length) = some 101 :=
  ⟨by decide, by decide, by decide⟩

/-- Claim C4 (corrected, amended): for every canonical key, the merged
record's content is the fold of the strictly-longer-wins rule over the
key's contributions, where the record-creating entry contributes its
post-fetch body (the fetched body when its policy demands a fetch that
succeeds, its stripped feed content otherwise) and every later entry
contributes its stripped feed content: the final content is the
first-encountered contribution of maximal length, so its length equals the
maximum contributed length and a later entry replaces content only when
strictly longer. -/
theorem content_growth_amended (fetch : Fetch) (rid : String)
    (entries : List RawEntry) (k : String) (it : MergedItem)
    (h : lookupKey (ingest_rss fetch rid entries) k = some it) :
    ∃ e₀ rest, contributions entries k = e₀ :: rest ∧
      it.content = firstMax (effContent fetch e₀)
        (rest.map (fun e => pyStrip e.raw_content)) ∧
      it.content ∈ effContent fetch e₀
          :: rest.map (fun e => pyStrip e.raw_content) ∧
      ∀ s ∈ effContent fetch e₀ :: rest.map (fun e => pyStrip e.raw_content),
        s.length ≤ it.content.length := by
  obtain ⟨e₀, rest, hc, rfl⟩ := lookupKey_some_contrib fetch rid entries k it h
  refine ⟨e₀, rest, hc, itemFor_content fetch rid e₀ rest, ?_, ?_⟩
  · rw [itemFor_content]
    exact firstMax_mem _ _
  · rw [itemFor_content]
    exact firstMax_le _ _

/-- Witness for the amended C4: two entries sharing a URL (contents
`alpha`, then a strictly longer `alphabeta`; both fetches fail, so feed
contents stand). -/
theorem content_growth_amended_witness :
    ∃ e₀ rest, contributions [entryN1, entryC2] "https://n/4" = e₀ :: rest ∧
      (itemFor noFetch "r0" entryN1 [entryC2]).content
          = firstMax (effContent noFetch e₀)
              (rest.map (fun e => pyStrip e.raw_content)) ∧
      (itemFor noFetch "r0" entryN1 [entryC2]).content
          ∈ effContent noFetch e₀
              :: rest.map (fun e => pyStrip e.raw_content) ∧
      ∀ s ∈ effContent noFetch e₀
          :: rest.map (fun e => pyStrip e.raw_content),
        s.length ≤ (itemFor noFetch "r0" entryN1 [entryC2]).content.length :=
  content_growth_amended noFetch "r0" [entryN1, entryC2] "https://n/4"
    (itemFor noFetch "r0" entryN1 [entryC2]) (by rfl)

/-- Claim C5 (confirmed): for every merged record, the resolved
`ingestion_tier` is the minimum of the contributing (accepted, same-URL)
entries' policy tiers — it is one of them and a lower bound — the resolved
`fetch_full_article` flag is the OR (`List.any`) of their policy flags, and
both values are unchanged under any permutation of the input entry
stream. -/
theorem tier_and_fetch_resolution (fetch : Fetch) (rid : String)
    (entries : List RawEntry) (k : String) (it : MergedItem)
    (h : lookupKey (ingest_rss fetch rid entries) k = some it) :
    (it.ingestion_tier ∈
        (contributions entries k).map
          (fun e => (resolvePolicy e.source_type).tier) ∧
      ∀ t ∈ (contributions entries k).map
          (fun e => (resolvePolicy e.source_type).tier),
        it.ingestion_tier ≤ t) ∧
    it.fetch_full_article =
      (contributions entries k).any
        (fun e => (resolvePolicy e.source_type).fetch_full_article) ∧
    ∀ entries' : List RawEntry, List.Perm entries entries' →
      ∀ it' : MergedItem,
        lookupKey (ingest_rss fetch rid entries') k = some it' →
          it'.ingestion_tier = it.ingestion_tier ∧
          it'.fetch_full_article = it.fetch_full_article := by
  obtain ⟨hmem, hle, hflag⟩ := tier_flag_char fetch rid entries k it h
  refine ⟨⟨hmem, hle⟩, hflag, ?_⟩
  intro entries' hp it' h'
  obtain ⟨hmem', hle', hflag'⟩ := tier_flag_char fetch rid entries' k it' h'
  have hpc : List.Perm (contributions entries k) (contributions entries' k) :=
    hp.filter _
  have hpt := hpc.map (fun e => (resolvePolicy e.source_type).tier)
  constructor
  · exact le_antisymm (hle' _ (hpt.mem_iff.mp hmem))
      (hle _ (hpt.mem_iff.mpr hmem'))
  · rw [hflag, hflag']
    exact (perm_any_eq _ _ hpc _).symm

/-- Witness for C5: the two-entry fixture — tier resolves to
min(1, 5) = 1, the fetch flag to true OR true. -/
theorem tier_and_fetch_resolution_witness :
    ((itemFor noFetch "r0" entryN1 [entryC2]).ingestion_tier ∈
        (contributions [entryN1, entryC2] "https://n/4").map
          (fun e => (resolvePolicy e.source_type).tier) ∧
      ∀ t ∈ (contributions [entryN1, entryC2] "https://n/4").map
          (fun e => (resolvePolicy e.source_type).tier),
        (itemFor noFetch "r0" entryN1 [entryC2]).ingestion_tier ≤ t) ∧
    (itemFor noFetch "r0" entryN1 [entryC2]).fetch_full_article =
      (contributions [entryN1, entryC2] "https://n/4").any
        (fun e => (resolvePolicy e.source_type).fetch_full_article) ∧
    ∀ entries' : List RawEntry, List.Perm [entryN1, entryC2] entries' →
      ∀ it' : MergedItem,
        lookupKey (ingest_rss noFetch "r0" entries') "https://n/4" = some it' →
          it'.ingestion_tier
              = (itemFor noFetch "r0" entryN1 [entryC2]).ingestion_tier ∧
          it'.fetch_full_article
              = (itemFor noFetch "r0" entryN1 [entryC2]).fetch_full_article :=
  tier_and_fetch_resolution noFetch "r0" [entryN1, entryC2] "https://n/4"
    (itemFor noFetch "r0" entryN1 [entryC2]) (by rfl)

/-- Claim C6 (corrected), counterexample: an entry whose feed supplies no
title (`entry.get("title", "")` is empty) but whose URL and content pass
the checks is NOT dropped — a record is created, with empty title. The
code never tests the title. -/
theorem rejection_counterexample :
    entryNoTitle.title = none ∧
    (ingest_rss noFetch "r0" [entryNoTitle]).length = 1 ∧
    (lookupKey (ingest_rss noFetch "r0" [entryNoTitle]) "https://n/2").map
        (fun it => it.title) = some "" :=
  ⟨rfl, by decide, by decide⟩

/-- Claim C6 (corrected, amended): an entry whose canonical key (URL) is
empty, whose extracted content is empty, or whose stripped content is
shorter than its own policy's minimum is dropped before the dedup lookup:
the item map is returned unchanged — no record created, none modified —
whatever the current map holds for any key. (The entry's title is not
examined by the filter.) -/
theorem rejection_amended (fetch : Fetch) (rid : String) (m : ItemMap)
    (e : RawEntry)
    (h : e.link = "" ∨ e.raw_content = "" ∨
      (pyStrip e.raw_content).length
        < (resolvePolicy e.source_type).min_content_length) :
    ingestStep fetch rid m e = m := by
  unfold ingestStep
  rcases h with h | h | h
  · by_cases h1 : e.raw_content = ""
    · simp [h1]
    · by_cases h2 : (pyStrip e.raw_content).length
          < (resolvePolicy e.source_type).min_content_length
      · simp [h1, h2]
      · simp [h1, h2, h]
  · simp [h]
  · by_cases h1 : e.raw_content = ""
    · simp [h1]
    · simp [h1, h]

/-- Witness for the amended C6: the linkless entry changes nothing. -/
theorem rejection_amended_witness :
    ingestStep noFetch "r0" [] entryNoLink = [] :=
  rejection_amended noFetch "r0" [] entryNoLink (Or.inl (by rfl))

/-! ## Claim C7 (topic mapping) -/

theorem applyTopic_idem (mapping : TopicMapping)
    (hidem : ∀ p ∈ mapping, ∀ q ∈ mapping, q.1 = p.2 → q.2 = q.1)
    (c : Claim) :
    applyTopic mapping (applyTopic mapping c) = applyTopic mapping c := by
  cases hf : mapping.find? (fun p => p.1 == c.topic_id) with
  | none =>
    have hid : applyTopic mapping c = c := by
      unfold applyTopic
      rw [hf]
    rw [hid, hid]
  | some p =>
    have happ : applyTopic mapping c = { c with topic_id := p.2 } := by
      unfold applyTopic
      rw [hf]
    rw [happ]
    show applyTopic mapping { c with topic_id := p.2 } = _
    unfold applyTopic
    cases hg : mapping.find?
        (fun q => q.1 == ({ c with topic_id := p.2 } : Claim).topic_id) with
    | none => rfl
    | some q =>
      have hq : q ∈ mapping := List.mem_of_find?_eq_some hg
      have hqkey : q.1 = p.2 := by
        have := List.find?_some hg
        simpa using this
      have hp : p ∈ mapping := List.mem_of_find?_eq_some hf
      have hq2 : q.2 = q.1 := hidem p hp q hq hqkey
      dsimp only
      rw [hq2, hqkey]

/-- Claim C7 (corrected), counterexample: with the mapping
`{"a": "b", "b": "c"}` (a legal oracle answer — the code nowhere validates
that values are not keys), a claim on topic `"a"` is rewritten to `"b"`,
which IS a key of the mapping, and a second application rewrites it again
to `"c"`: closure and idempotence both fail. (Even for benign mappings
such as the spec's own scenario, an identity entry like
`"gpt5_release": "gpt5_release"` leaves final topic ids that are keys of
the mapping, so the claim's literal "no topic id is a key" reading also
fails there.) -/
theorem topic_mapping_counterexample :
    (applyMapping mapChain [claimTopicA]).map (fun c => c.topic_id) = ["b"] ∧
    "b" ∈ mapChain.map (fun p => p.1) ∧
    applyMapping mapChain (applyMapping mapChain [claimTopicA])
      ≠ applyMapping mapChain [claimTopicA] :=
  ⟨by decide, by decide, by decide⟩

/-- Claim C7 (corrected, amended): for a mapping in which every value that
is also a key is a fixed point (`mapping[v] = v`, as in identity entries),
the single rewrite pass is closed — any key equal to a rewritten claim's
topic id maps it to itself, so no further rewriting is possible — and
applying the mapping a second time is a no-op. For mappings with chained
entries (a value that is a non-fixed-point key) both properties fail, as
the counterexample shows. -/
theorem topic_mapping_amended (mapping : TopicMapping) (claims : List Claim)
    (hidem : ∀ p ∈ mapping, ∀ q ∈ mapping, q.1 = p.2 → q.2 = q.1) :
    (∀ c ∈ applyMapping mapping claims, ∀ q ∈ mapping,
      q.1 = c.topic_id → q.2 = c.topic_id) ∧
    applyMapping mapping (applyMapping mapping claims)
      = applyMapping mapping claims := by
  constructor
  · intro c' hc' q hq hkey
    obtain ⟨c, _hc, rfl⟩ := List.mem_map.mp hc'
    cases hf : mapping.find? (fun p => p.1 == c.topic_id) with
    | none =>
      have hid : applyTopic mapping c = c := by
        unfold applyTopic
        rw [hf]
      rw [hid] at hkey ⊢
      have hnone := List.find?_eq_none.mp hf q hq
      exact absurd hkey (by simpa using hnone)
    | some p =>
      have happ : applyTopic mapping c = { c with topic_id := p.2 } := by
        unfold applyTopic
        rw [hf]
      rw [happ] at hkey ⊢
      have hp : p ∈ mapping := List.mem_of_find?_eq_some hf
      exact (hidem p hp q hq hkey).trans hkey
  · unfold applyMapping
    rw [List.map_map]
    apply List.map_congr_left
    intro c _hc
    exact applyTopic_idem mapping hidem c

/-- Witness for the amended C7: the spec §8 scenario mapping
(`gpt_5_launch` and `gpt5_release` both map to `gpt5_release`, the latter
an identity entry). -/
theorem topic_mapping_amended_witness :
    (∀ c ∈ applyMapping mapGpt [claimGptLaunch], ∀ q ∈ mapGpt,
      q.1 = c.topic_id → q.2 = c.topic_id) ∧
    applyMapping mapGpt (applyMapping mapGpt [claimGptLaunch])
      = applyMapping mapGpt [claimGptLaunch] :=
  topic_mapping_amended mapGpt [claimGptLaunch] (by decide)

end Brief
